import Mathlib

/-!
# Timer widget (`app_vendas/static/js/timer.js`)

A shallow embedding of the polling widget: `updateTimer` (a `fetch` followed by
two `then` handlers and one `catch` handler), the `setInterval` registration
made when the script is loaded, and `stopScheduler`.

The browser is represented by the part of its state the script reads or
writes (`Page`); the network is represented by the way a request settles
(`FetchOutcome`).  Asynchrony is made explicit: the synchronous part of
`updateTimer` issues the request, and the promise chain runs later, when the
request settles, against whatever the page looks like at that moment.  The
document lives in a tab (`Tab`): a navigation started by `stopScheduler`
unloads it when it commits.
-/

namespace TimerWidget

/-! ## JavaScript values -/

/-- A JavaScript number, that is, an IEEE double, given by what
`Number::toString` reads off it.  A finite number other than zero is given by
its sign and by the integers `s` (`digits`) and `n` (`point`) of the shortest
decimal `s × 10 ^ (n - k)` that denotes it, `k` being the number of digits of
`s`: `42` is `s = 42, n = 2`, `1.5` is `s = 15, n = 1`, `0.001` is
`s = 1, n = -2`.  Every double has exactly one such form.  Which forms belong
to a double is a matter of floating-point rounding and is not constrained, so
that a statement over all forms covers all doubles. -/
inductive JSNumber where
  | nan
  | infinity (negative : Bool)
  | zero (negative : Bool)
  | finite (negative : Bool) (digits : Nat) (point : Int) (shortest : digits % 10 ≠ 0)

/-- The values a handler of `updateTimer` can meet: what `response.json()`
produces, and `undefined`, produced by reading a property that is not there.
An object is the list of its own properties in the order of the response
text. -/
inductive JSValue where
  | undefined
  | null
  | bool (b : Bool)
  | number (n : JSNumber)
  | string (s : String)
  | array (items : List JSValue)
  | object (props : List (String × JSValue))

/-- The errors that can travel down the promise chain. -/
inductive JSError where
  /-- `fetch` rejected (network or transport failure), with its reason. -/
  | network (reason : String)
  /-- `response.json()` rejected: the body is not JSON. -/
  | syntaxError
  /-- A `TypeError` thrown by a handler: a property access on `null` or
  `undefined`, or a value that cannot be converted to a primitive. -/
  | typeError
  deriving DecidableEq, Repr

/-- The last steps of `Number::toString` for a positive finite number with
decimal digits `s` and point position `n`, `k` being the number of digits:
plain digits followed by zeros when `k ≤ n ≤ 21`; digits with a point inside
when `0 < n ≤ 21`; `0.` followed by zeros and the digits when `-6 < n ≤ 0`;
exponent form otherwise. -/
def formatDecimal (s : Nat) (n : Int) : String :=
  let ds := Nat.toDigits 10 s
  let k : Int := ds.length
  if k ≤ n ∧ n ≤ 21 then
    String.mk (ds ++ List.replicate (n - k).toNat '0')
  else if 0 < n ∧ n ≤ 21 then
    String.mk (ds.take n.toNat ++ '.' :: ds.drop n.toNat)
  else if -6 < n ∧ n ≤ 0 then
    String.mk ('0' :: '.' :: List.replicate (-n).toNat '0' ++ ds)
  else
    let exponent := (if 0 < n - 1 then '+' else '-') :: Nat.toDigits 10 (n - 1).natAbs
    if ds.length = 1 then
      String.mk (ds ++ 'e' :: exponent)
    else
      String.mk (ds.take 1 ++ '.' :: ds.drop 1 ++ 'e' :: exponent)

/-- `Number::toString`: `NaN`, `Infinity`, `0` for both zeros, a minus sign in
front of the text of the opposite for a negative number, and `formatDecimal`
for a positive finite one. -/
def numberToString : JSNumber → String
  | .nan => "NaN"
  | .infinity false => "Infinity"
  | .infinity true => "-Infinity"
  | .zero _ => "0"
  | .finite false s n _ => formatDecimal s n
  | .finite true s n _ => "-" ++ formatDecimal s n

/-- The comparison `n <= 0` on numbers: false for `NaN`, true for both zeros,
and decided by the sign otherwise. -/
def numberLeZero : JSNumber → Bool
  | .nan => false
  | .infinity negative => negative
  | .zero _ => true
  | .finite negative _ _ _ => negative


/-- Own property lookup in an object built by `JSON.parse`: when the text
repeats a key, the later occurrence is the one that is kept. -/
def lookupOwn (key : String) : List (String × JSValue) → Option JSValue
  | [] => none
  | (k, v) :: rest =>
    match lookupOwn key rest with
    | some w => some w
    | none => if k = key then some v else none

/-- Whether an object has an own property with the given name. -/
def hasOwn (key : String) : List (String × JSValue) → Bool
  | [] => false
  | (k, _) :: rest => k == key || hasOwn key rest

/-- The property read `data.time_remaining`.  On `null` and `undefined` it
throws a `TypeError`; on an object it yields the own property, or `undefined`
when there is none; booleans, numbers, strings and arrays have no such
property, own or inherited. -/
def getTimeRemaining : JSValue → Except JSError JSValue
  | .undefined => .error .typeError
  | .null => .error .typeError
  | .object props =>
    match lookupOwn "time_remaining" props with
    | some v => .ok v
    | none => .ok .undefined
  | _ => .ok .undefined

/-- Whether a value is `null` or `undefined`. -/
def isNullish : JSValue → Bool
  | .undefined => true
  | .null => true
  | _ => false

mutual
/-- `ToString` of a value, as applied to the elements of an array by
`Array.prototype.join` and, through `toDOMString`, to the value assigned to
`innerText`.

A plain object is converted by `OrdinaryToPrimitive`: the method found under
`toString` is called if it is callable, then the one under `valueOf`.  A value
coming from JSON is never callable, so an own property named `toString` hides
`Object.prototype.toString`; `Object.prototype.valueOf` (or an own `valueOf`
that is not callable) never yields a primitive; the conversion then throws a
`TypeError`.  Without an own `toString` the result is `[object Object]`. -/
def jsToString : JSValue → Except JSError String
  | .undefined => .ok "undefined"
  | .null => .ok "null"
  | .bool true => .ok "true"
  | .bool false => .ok "false"
  | .number n => .ok (numberToString n)
  | .string s => .ok s
  | .array items => joinItems items
  | .object props => if hasOwn "toString" props then .error .typeError else .ok "[object Object]"

/-- `Array.prototype.join` with the default separator `,`: an element that is
`null` or `undefined` contributes the empty string, any other element its
`ToString`. -/
def joinItems : List JSValue → Except JSError String
  | [] => .ok ""
  | x :: rest =>
    match (if isNullish x then .ok "" else jsToString x), rest.isEmpty, joinItems rest with
    | .error e, _, _ => .error e
    | .ok s, true, _ => .ok s
    | .ok _, false, .error e => .error e
    | .ok s, false, .ok t => .ok (s ++ "," ++ t)
end

/-- Conversion of the value assigned to `innerText`, an attribute declared as
`[LegacyNullToEmptyString] DOMString`: `null` becomes the empty string, every
other value goes through `ToString`. -/
def toDOMString : JSValue → Except JSError String
  | .null => .ok ""
  | v => jsToString v

/-- The condition `data.time_remaining <= 0`, applied to the value read from
the field.  The operand is converted to a number first: `undefined` to `NaN`
(the comparison is then false), `null` to `0`, `true` to `1`, `false` to `0`.
An array or an object is first converted to a primitive, which for a value
coming from JSON is its `ToString` and throws exactly when that does.  The
numeric reading of a string is a floating-point conversion and is not
evaluated: the result is then `none`. -/
def leZero : JSValue → Except JSError (Option Bool)
  | .undefined => .ok (some false)
  | .null => .ok (some true)
  | .bool b => .ok (some (!b))
  | .number n => .ok (some (numberLeZero n))
  | .string _ => .ok none
  | v =>
    match jsToString v with
    | .error e => .error e
    | .ok _ => .ok none

/-! ## The page and the network -/

/-- A request issued with `fetch`. -/
structure Request where
  method : String
  url : String
  body : Option String
  deriving DecidableEq, Repr

/-- One call of `console.error(message, error)`. -/
structure LogEntry where
  message : String
  error : JSError
  deriving DecidableEq, Repr

/-- The functions of the script that can be registered as a timer callback. -/
inductive Callback where
  | updateTimer
  deriving DecidableEq, Repr

/-- A repeating timer registered with `setInterval`. -/
structure Interval where
  callback : Callback
  period : Nat
  deriving DecidableEq, Repr

/-- The part of the browser state the script reads or writes.

* `display`: the `innerText` of the element with id `time-remaining`, or `none`
  when the page has no such element (`getElementById` then returns `null`);
* `console`: the calls of `console.error`, oldest first;
* `requests`: the requests issued with `fetch`, oldest first;
* `location`: `window.location.href`, the navigation target;
* `intervals`: the repeating timers that are active;
* `unhandled`: the rejections that reached the end of a promise chain without
  meeting a handler. -/
structure Page where
  display : Option String
  console : List LogEntry
  requests : List Request
  location : String
  intervals : List Interval
  unhandled : List JSError
  deriving DecidableEq, Repr

/-- A response as `updateTimer` sees it: its status, which the script never
reads, and what `response.json()` makes of its body (`none` when the body is
not JSON). -/
structure Response where
  status : Nat
  json : Option JSValue

/-- How a request settles: `fetch` rejects, or resolves with a response
(whatever its status: `fetch` resolves on 4xx and 5xx too). -/
inductive FetchOutcome where
  | rejects (reason : String)
  | resolves (response : Response)

/-! ## Promise chains -/

/-- A settled promise together with the page its handlers have left behind. -/
abbrev Settled (α : Type) := Except JSError α × Page

/-- The handler passed to `.then`, run when the promise is fulfilled; a
rejection passes through untouched. -/
def andThen {α β : Type} (s : Settled α) (f : α → Page → Settled β) : Settled β :=
  match s with
  | (.ok a, p) => f a p
  | (.error e, p) => (.error e, p)

/-- The handler passed to `.catch`, run when the promise is rejected; a
fulfilment passes through untouched. -/
def orCatch {α : Type} (s : Settled α) (g : JSError → Page → Settled α) : Settled α :=
  match s with
  | (.ok a, p) => (.ok a, p)
  | (.error e, p) => g e p

/-- The end of a chain: a rejection that no handler has taken is reported by
the browser as an unhandled rejection. -/
def finish {α : Type} (s : Settled α) : Page :=
  match s with
  | (.ok _, p) => p
  | (.error e, p) => { p with unhandled := p.unhandled ++ [e] }

/-! ## The script -/

/-- The path requested by `updateTimer`. -/
def timeRemainingUrl : String := "/api/time_remaining"

/-- The message passed to `console.error` by the `catch` handler. -/
def errorMessage : String := "Erro ao obter o tempo restante:"

/-- The call `fetch(url)`: with no second argument the request is a `GET`
without a body. -/
def fetch (url : String) (p : Page) : Page :=
  { p with requests := p.requests ++ [{ method := "GET", url := url, body := none }] }

/-- The promise returned by `fetch`, once the request has settled. -/
def fetched (o : FetchOutcome) (p : Page) : Settled Response :=
  match o with
  | .rejects reason => (.error (.network reason), p)
  | .resolves r => (.ok r, p)

/-- First handler: `response => response.json()`. -/
def parseJson (response : Response) (p : Page) : Settled JSValue :=
  match response.json with
  | some data => (.ok data, p)
  | none => (.error .syntaxError, p)

/-- The body of `if (data.time_remaining <= 0) { }`: an empty block. -/
def zeroReached (p : Page) : Page := p

/-- Second handler:
`data => { const timeElement = document.getElementById('time-remaining');`
`timeElement.innerText = data.time_remaining;`
`if (data.time_remaining <= 0) { } }`.
The assignment throws a `TypeError` when `data` is `null`, when there is no
such element, or when the value has no text form. -/
def showTime (data : JSValue) (p : Page) : Settled Unit :=
  let timeElement := p.display
  match getTimeRemaining data with
  | .error e => (.error e, p)
  | .ok value =>
    match timeElement with
    | none => (.error .typeError, p)
    | some _ =>
      match toDOMString value with
      | .error e => (.error e, p)
      | .ok text =>
        let p1 := { p with display := some text }
        match leZero value with
        | .error e => (.error e, p1)
        | .ok (some true) => (.ok (), zeroReached p1)
        | .ok _ => (.ok (), p1)

/-- The `catch` handler:
`error => console.error('Erro ao obter o tempo restante:', error)`. -/
def logError (error : JSError) (p : Page) : Settled Unit :=
  (.ok (), { p with console := p.console ++ [{ message := errorMessage, error := error }] })

/-- The synchronous part of `updateTimer`: the request is issued and the
handlers are attached; nothing else happens until the request settles. -/
def updateTimerCall (p : Page) : Page :=
  fetch timeRemainingUrl p

/-- The asynchronous part of `updateTimer`: the chain
`fetch(..).then(parseJson).then(showTime).catch(logError)` run on the outcome
of the request, against the page as it is when the request settles. -/
def updateTimerSettle (o : FetchOutcome) (p : Page) : Page :=
  finish (orCatch (andThen (andThen (fetched o p) parseJson) showTime) logError)

/-- One invocation of `updateTimer` whose request settles with `o` before
anything else happens on the page. -/
def updateTimer (o : FetchOutcome) (p : Page) : Page :=
  updateTimerSettle o (updateTimerCall p)

/-- The call `setInterval(callback, period)`. -/
def setInterval (callback : Callback) (period : Nat) (p : Page) : Page :=
  { p with intervals := p.intervals ++ [{ callback := callback, period := period }] }

/-- The top level of the script, run once when the page loads:
`setInterval(updateTimer, 1000)`. -/
def loadScript (p : Page) : Page :=
  setInterval .updateTimer 1000 p

/-- The function `stopScheduler`: `window.location.href = '/stop'`.  This is
the state of the page when the function returns: the navigation target is set
and a navigation is started.  The script goes on running in the document until
that navigation commits, which is an event of the tab (`Tab`, `tabStep`). -/
def stopScheduler (p : Page) : Page :=
  { p with location := "/stop" }

/-! ## The event loop -/

/-- The page together with the requests still in flight, each named by its
position in `Page.requests`. -/
structure Sys where
  page : Page
  pending : List Nat
  deriving DecidableEq, Repr

/-- What can happen on the page: the repeating timer at position `timer` of
`Page.intervals` fires; the request at position `request` settles; the user
triggers `stopScheduler`. -/
inductive Event where
  | fire (timer : Nat)
  | settle (request : Nat) (outcome : FetchOutcome)
  | stop

/-- A timer callback is run. -/
def runCallback : Callback → Sys → Sys
  | .updateTimer, s =>
    { page := updateTimerCall s.page, pending := s.pending ++ [s.page.requests.length] }

/-- One turn of the event loop; `none` when the event cannot happen (the
timer is not active, or the request is not in flight). -/
def step : Event → Sys → Option Sys
  | .fire timer, s =>
    match s.page.intervals.get? timer with
    | some interval => some (runCallback interval.callback s)
    | none => none
  | .settle request outcome, s =>
    if request ∈ s.pending then
      some { page := updateTimerSettle outcome s.page, pending := s.pending.erase request }
    else none
  | .stop, s => some { s with page := stopScheduler s.page }

/-- A sequence of turns, oldest first. -/
def run : List Event → Sys → Option Sys
  | [], s => some s
  | e :: es, s =>
    match step e s with
    | some s1 => run es s1
    | none => none

/-- The page before the script runs. -/
def freshPage (display : Option String) (href : String) : Page :=
  { display := display, console := [], requests := [], location := href,
    intervals := [], unhandled := [] }

/-- The state right after page load: the script has run, nothing is in
flight. -/
def pageLoad (display : Option String) (href : String) : Sys :=
  { page := loadScript (freshPage display href), pending := [] }

/-- The request `GET /api/time_remaining`, without body or query string. -/
def timeRequest : Request :=
  { method := "GET", url := "/api/time_remaining", body := none }

/-- The number of timer firings in a trace. -/
def countFires : List Event → Nat
  | [] => 0
  | .fire _ :: es => countFires es + 1
  | _ :: es => countFires es

/-! ## Reading of the specification used for the race on the display -/

/-- The text carried by a response that resolves successfully: the request
resolved, its body is JSON, and the field read from it has a text form.
`none` for a failed resolution. -/
def responseText : FetchOutcome → Option String
  | .rejects _ => none
  | .resolves r =>
    match r.json with
    | none => none
    | some data =>
      match getTimeRemaining data with
      | .error _ => none
      | .ok value =>
        match toDOMString value with
        | .error _ => none
        | .ok text => some text

/-- The text of the most recently resolved successful response of a trace,
in the order in which the responses resolved; `none` when no response of the
trace was successful. -/
def lastResolved : List Event → Option String
  | [] => none
  | e :: es =>
    match lastResolved es with
    | some text => some text
    | none =>
      match e with
      | .settle _ o => responseText o
      | _ => none

/-- The page after the `catch` handler has logged `e`. -/
def logged (e : JSError) (p : Page) : Page :=
  { p with console := p.console ++ [{ message := errorMessage, error := e }] }

/-! ## The tab around the page -/

/-- The browser tab that holds the page.  While the document is `live` the
script runs in it; `leaving` is the target of a navigation that has been
started by assigning `window.location.href` and has not committed yet.  When
the navigation commits the document is unloaded: its timers and its requests
in flight are discarded with it, and no code of the script runs any more
(`gone`). -/
inductive Tab where
  | live (s : Sys) (leaving : Option String)
  | gone (target : String)

/-- What can happen in the tab: a turn of the event loop of the page, or the
commit of the navigation that was started. -/
inductive TabEvent where
  | widget (e : Event)
  | commit

/-- The navigation pending after a turn of the event loop: `stopScheduler`
starts one towards the target it has assigned; the other turns start none. -/
def leavingAfter : Event → Sys → Option String → Option String
  | .stop, s1, _ => some s1.page.location
  | _, _, leaving => leaving

/-- One event of the tab; `none` when it cannot happen: the document is gone,
or no navigation is there to commit. -/
def tabStep : TabEvent → Tab → Option Tab
  | .widget e, .live s leaving =>
    match step e s with
    | some s1 => some (.live s1 (leavingAfter e s1 leaving))
    | none => none
  | .commit, .live _ (some target) => some (.gone target)
  | _, _ => none

/-- A sequence of events of the tab, oldest first. -/
def tabRun : List TabEvent → Tab → Option Tab
  | [], t => some t
  | e :: es, t =>
    match tabStep e t with
    | some t1 => tabRun es t1
    | none => none

/-- The tab right after page load. -/
def tabLoad (display : Option String) (href : String) : Tab :=
  .live (pageLoad display href) none

/-! ## Reading of the amended claim on values without a text form -/

/-- The values that have no text form: an object with an own property named
`toString`, and an array one of whose elements has no text form. -/
inductive NoText : JSValue → Prop where
  | shadowed (props : List (String × JSValue)) (v : JSValue) :
      ("toString", v) ∈ props → NoText (.object props)
  | inside (items : List JSValue) (x : JSValue) :
      x ∈ items → NoText x → NoText (.array items)

/-! ## Sample data -/

/-- The number `42`. -/
def fortyTwo : JSNumber := .finite false 42 2 (by decide)

/-- The number `0`. -/
def zero : JSNumber := .zero false

/-- The number `10`. -/
def ten : JSNumber := .finite false 1 2 (by decide)

/-- The number `30`. -/
def thirty : JSNumber := .finite false 3 2 (by decide)

/-- The body `{"time_remaining": n}`. -/
def timeBody (n : JSNumber) : JSValue :=
  .object [("time_remaining", .number n)]

/-- A response with status 200 and body `{"time_remaining": n}`. -/
def okResponse (n : JSNumber) : FetchOutcome :=
  .resolves ⟨200, some (timeBody n)⟩

/-- A loaded page whose display shows `text`. -/
def pageShowing (text : String) : Page :=
  loadScript (freshPage (some text) "/")

/-- A loaded page without the element `time-remaining`. -/
def pageWithoutDisplay : Page :=
  loadScript (freshPage none "/")

/-- The body `{"status": "ok", "time_remaining": 42}`. -/
def statusBody : JSValue :=
  .object [("status", .string "ok"), ("time_remaining", .number fortyTwo)]

/-- The body `{"time_remaining": {"toString": 1}}`. -/
def shadowedBody : JSValue :=
  .object [("time_remaining", .object [("toString", .number (.finite false 1 1 (by decide)))])]

/-- Three requests are sent; the third resolves first with 30, the first is
rejected, and the second resolves last with 10. -/
def raceTrace : List Event :=
  [.fire 0, .fire 0, .fire 0, .settle 2 (okResponse thirty),
    .settle 0 (.rejects "offline"), .settle 1 (okResponse ten)]

/-- The responses of `raceTrace`, by request. -/
def raceResponses : Nat → FetchOutcome
  | 0 => .rejects "offline"
  | 1 => okResponse ten
  | _ => okResponse thirty

/-- The order in which the requests of `raceTrace` settle. -/
def raceOrder : List Nat := [2, 0, 1]

/-! ## Auxiliary facts -/

theorem leZero_defined (v : JSValue) (text : String) (h : toDOMString v = .ok text) :
    ∃ c, leZero v = .ok c := by
  cases v <;> simp_all [leZero, toDOMString]

theorem getTimeRemaining_error (d : JSValue) (e : JSError) (h : getTimeRemaining d = .error e) :
    e = .typeError := by
  cases d with
  | undefined => simp [getTimeRemaining] at h; exact h.symm
  | null => simp [getTimeRemaining] at h; exact h.symm
  | object props =>
    simp only [getTimeRemaining] at h
    split at h <;> simp at h
  | bool b => simp [getTimeRemaining] at h
  | number n => simp [getTimeRemaining] at h
  | string s => simp [getTimeRemaining] at h
  | array items => simp [getTimeRemaining] at h

theorem lookupOwn_absent (key : String) (props : List (String × JSValue))
    (h : ∀ kv ∈ props, kv.1 ≠ key) : lookupOwn key props = none := by
  induction props with
  | nil => rfl
  | cons kv rest ih =>
    obtain ⟨k, v⟩ := kv
    have hk : k ≠ key := h (k, v) (List.mem_cons_self _ _)
    simp [lookupOwn, ih (fun x hx => h x (List.mem_cons_of_mem _ hx)), hk]

theorem lookupOwn_last (key : String) (v : JSValue) (before after : List (String × JSValue))
    (h : ∀ kv ∈ after, kv.1 ≠ key) :
    lookupOwn key (before ++ (key, v) :: after) = some v := by
  induction before with
  | nil => simp [lookupOwn, lookupOwn_absent key after h]
  | cons kv rest ih =>
    obtain ⟨k, w⟩ := kv
    simp [lookupOwn, ih]

theorem hasOwn_iff (key : String) (props : List (String × JSValue)) :
    hasOwn key props = true ↔ ∃ v, (key, v) ∈ props := by
  induction props with
  | nil => simp [hasOwn]
  | cons kv rest ih =>
    obtain ⟨k, w⟩ := kv
    simp only [hasOwn, Bool.or_eq_true, beq_iff_eq, ih, List.mem_cons, Prod.mk.injEq]
    constructor
    · rintro (h | ⟨v, hv⟩)
      · exact ⟨w, Or.inl ⟨h.symm, rfl⟩⟩
      · exact ⟨v, Or.inr hv⟩
    · rintro ⟨v, (⟨h, _⟩ | hv)⟩
      · exact Or.inl h.symm
      · exact Or.inr ⟨v, hv⟩

theorem noText_array (items : List JSValue) :
    NoText (.array items) ↔ ∃ x ∈ items, NoText x := by
  constructor
  · intro h
    cases h with
    | inside _ x hx hn => exact ⟨x, hx, hn⟩
  · rintro ⟨x, hx, hn⟩
    exact NoText.inside items x hx hn

theorem noText_object (props : List (String × JSValue)) :
    NoText (.object props) ↔ hasOwn "toString" props = true := by
  rw [hasOwn_iff]
  constructor
  · intro h
    cases h with
    | shadowed _ v hv => exact ⟨v, hv⟩
  · rintro ⟨v, hv⟩
    exact NoText.shadowed props v hv

theorem noText_not_nullish (x : JSValue) (h : isNullish x = true) : ¬ NoText x := by
  intro hn
  cases hn <;> simp [isNullish] at h

mutual
/-- The conversion to text fails exactly on the values without a text form,
and then with a `TypeError`. -/
theorem jsToString_sound : ∀ (v : JSValue),
    (NoText v ∧ jsToString v = .error .typeError) ∨
      (¬ NoText v ∧ ∃ text, jsToString v = .ok text)
  | .undefined => Or.inr ⟨(fun h => by cases h), _, rfl⟩
  | .null => Or.inr ⟨(fun h => by cases h), _, rfl⟩
  | .bool true => Or.inr ⟨(fun h => by cases h), _, rfl⟩
  | .bool false => Or.inr ⟨(fun h => by cases h), _, rfl⟩
  | .number _ => Or.inr ⟨(fun h => by cases h), _, rfl⟩
  | .string _ => Or.inr ⟨(fun h => by cases h), _, rfl⟩
  | .array items => by
    rcases joinItems_sound items with ⟨hn, he⟩ | ⟨hn, text, ht⟩
    · exact Or.inl ⟨(noText_array items).mpr hn, by simp [jsToString, he]⟩
    · exact Or.inr ⟨fun h => hn ((noText_array items).mp h), text, by simp [jsToString, ht]⟩
  | .object props => by
    cases hp : hasOwn "toString" props with
    | true => exact Or.inl ⟨(noText_object props).mpr hp, by simp [jsToString, hp]⟩
    | false =>
      refine Or.inr ⟨fun h => ?_, "[object Object]", by simp [jsToString, hp]⟩
      rw [(noText_object props).mp h] at hp
      cases hp

theorem joinItems_sound : ∀ (items : List JSValue),
    ((∃ x ∈ items, NoText x) ∧ joinItems items = .error .typeError) ∨
      ((¬ ∃ x ∈ items, NoText x) ∧ ∃ text, joinItems items = .ok text)
  | [] => Or.inr ⟨by simp, "", rfl⟩
  | x :: rest => by
    have hx : (NoText x ∧ (if isNullish x then .ok "" else jsToString x) = .error .typeError) ∨
        (¬ NoText x ∧ ∃ text, (if isNullish x then .ok "" else jsToString x) = .ok text) := by
      cases hnl : isNullish x with
      | true => exact Or.inr ⟨noText_not_nullish x hnl, "", by simp⟩
      | false => simpa using jsToString_sound x
    rcases hx with ⟨hnx, hex⟩ | ⟨hnx, tx, htx⟩
    · exact Or.inl ⟨⟨x, List.mem_cons_self _ _, hnx⟩, by simp only [joinItems, hex]⟩
    · rcases joinItems_sound rest with ⟨⟨y, hy, hny⟩, her⟩ | ⟨hnr, tr, htr⟩
      · refine Or.inl ⟨⟨y, List.mem_cons_of_mem _ hy, hny⟩, ?_⟩
        cases rest with
        | nil => cases hy
        | cons z zs => simp only [joinItems] at her ⊢; simp [htx, her]
      · refine Or.inr ⟨?_, ?_⟩
        · rintro ⟨y, hy, hny⟩
          rcases List.mem_cons.mp hy with rfl | hy
          · exact hnx hny
          · exact hnr ⟨y, hy, hny⟩
        · cases hre : rest.isEmpty with
          | true => exact ⟨tx, by simp only [joinItems, htx, hre]⟩
          | false => exact ⟨tx ++ "," ++ tr, by simp only [joinItems, htx, hre, htr]⟩
end

theorem toDOMString_sound (v : JSValue) :
    (NoText v ∧ toDOMString v = .error .typeError) ∨
      (¬ NoText v ∧ ∃ text, toDOMString v = .ok text) := by
  cases v with
  | null => exact Or.inr ⟨(fun h => by cases h), "", rfl⟩
  | undefined => exact jsToString_sound .undefined
  | bool b => exact jsToString_sound (.bool b)
  | number n => exact jsToString_sound (.number n)
  | string t => exact jsToString_sound (.string t)
  | array items => exact jsToString_sound (.array items)
  | object props => exact jsToString_sound (.object props)

theorem showTime_shown (d v : JSValue) (p : Page) (prior text : String)
    (hp : p.display = some prior) (hv : getTimeRemaining d = .ok v)
    (ht : toDOMString v = .ok text) :
    showTime d p = (.ok (), { p with display := some text }) := by
  obtain ⟨c, hc⟩ := leZero_defined v text ht
  unfold showTime
  simp only [hv, hp, ht, hc, zeroReached]
  split <;> first | rfl | simp_all

theorem showTime_no_element (d : JSValue) (p : Page) (hp : p.display = none) :
    showTime d p = (.error .typeError, p) := by
  unfold showTime
  cases hv : getTimeRemaining d with
  | error e => simp [getTimeRemaining_error d e hv]
  | ok v => simp [hp]

theorem showTime_no_text (d v : JSValue) (p : Page) (prior : String) (e : JSError)
    (hp : p.display = some prior) (hv : getTimeRemaining d = .ok v)
    (ht : toDOMString v = .error e) :
    showTime d p = (.error e, p) := by
  unfold showTime
  simp only [hv, hp, ht]

theorem showTime_no_field (d : JSValue) (p : Page) (e : JSError)
    (hv : getTimeRemaining d = .error e) :
    showTime d p = (.error e, p) := by
  unfold showTime
  simp only [hv]

theorem settle_rejects (reason : String) (p : Page) :
    updateTimerSettle (.rejects reason) p = logged (.network reason) p := by
  rfl

theorem settle_unparsed (status : Nat) (p : Page) :
    updateTimerSettle (.resolves ⟨status, none⟩) p = logged .syntaxError p := by
  rfl

theorem settle_parsed (status : Nat) (d : JSValue) (p : Page) :
    updateTimerSettle (.resolves ⟨status, some d⟩) p
      = finish (orCatch (showTime d p) logError) := by
  rfl

theorem settle_shown (status : Nat) (d v : JSValue) (p : Page) (prior text : String)
    (hp : p.display = some prior) (hv : getTimeRemaining d = .ok v)
    (ht : toDOMString v = .ok text) :
    updateTimerSettle (.resolves ⟨status, some d⟩) p = { p with display := some text } := by
  rw [settle_parsed, showTime_shown d v p prior text hp hv ht]
  rfl

theorem settle_no_element (status : Nat) (d : JSValue) (p : Page) (hp : p.display = none) :
    updateTimerSettle (.resolves ⟨status, some d⟩) p = logged .typeError p := by
  rw [settle_parsed, showTime_no_element d p hp]
  rfl

theorem settle_no_text (status : Nat) (d v : JSValue) (p : Page) (prior : String)
    (e : JSError) (hp : p.display = some prior) (hv : getTimeRemaining d = .ok v)
    (ht : toDOMString v = .error e) :
    updateTimerSettle (.resolves ⟨status, some d⟩) p = logged e p := by
  rw [settle_parsed, showTime_no_text d v p prior e hp hv ht]
  rfl

theorem settle_no_field (status : Nat) (d : JSValue) (p : Page) (e : JSError)
    (hv : getTimeRemaining d = .error e) :
    updateTimerSettle (.resolves ⟨status, some d⟩) p = logged e p := by
  rw [settle_parsed, showTime_no_field d p e hv]
  rfl

/-- Every settlement either writes the text of a successful response on the
display and changes nothing else, or logs one error and changes nothing
else. -/
theorem settle_cases (o : FetchOutcome) (p : Page) :
    (∃ prior text, p.display = some prior ∧ responseText o = some text ∧
        updateTimerSettle o p = { p with display := some text }) ∨
    ((p.display = none ∨ responseText o = none) ∧
        ∃ e, updateTimerSettle o p = logged e p) := by
  cases o with
  | rejects reason => exact Or.inr ⟨Or.inr rfl, _, settle_rejects reason p⟩
  | resolves r =>
    obtain ⟨status, json⟩ := r
    cases json with
    | none => exact Or.inr ⟨Or.inr rfl, _, settle_unparsed status p⟩
    | some d =>
      cases hp : p.display with
      | none => exact Or.inr ⟨Or.inl rfl, _, settle_no_element status d p hp⟩
      | some prior =>
        cases hv : getTimeRemaining d with
        | error e =>
          refine Or.inr ⟨Or.inr ?_, e, settle_no_field status d p e hv⟩
          simp [responseText, hv]
        | ok v =>
          cases ht : toDOMString v with
          | error e =>
            refine Or.inr ⟨Or.inr ?_, e, settle_no_text status d v p prior e hp hv ht⟩
            simp [responseText, hv, ht]
          | ok text =>
            refine Or.inl ⟨prior, text, rfl, ?_, settle_shown status d v p prior text hp hv ht⟩
            simp [responseText, hv, ht]

theorem settle_intervals (o : FetchOutcome) (p : Page) :
    (updateTimerSettle o p).intervals = p.intervals := by
  rcases settle_cases o p with ⟨_, _, _, _, h⟩ | ⟨_, _, h⟩
  · rw [h]
  · rw [h]; rfl

theorem settle_requests (o : FetchOutcome) (p : Page) :
    (updateTimerSettle o p).requests = p.requests := by
  rcases settle_cases o p with ⟨_, _, _, _, h⟩ | ⟨_, _, h⟩
  · rw [h]
  · rw [h]; rfl

theorem settle_display (o : FetchOutcome) (p : Page) (prior : String)
    (hp : p.display = some prior) :
    (updateTimerSettle o p).display = some ((responseText o).getD prior) := by
  rcases settle_cases o p with ⟨q, text, hq, ht, h⟩ | ⟨hn, e, h⟩
  · rw [h, ht]; rfl
  · rcases hn with hn | hn
    · rw [hp] at hn; cases hn
    · rw [h, hn]; exact hp

theorem step_intervals (e : Event) (s s1 : Sys) (h : step e s = some s1) :
    s1.page.intervals = s.page.intervals := by
  cases e with
  | fire timer =>
    simp only [step] at h
    split at h
    · next interval _ =>
      cases hc : interval.callback
      simp only [hc, runCallback, Option.some.injEq] at h
      rw [← h]; rfl
    · cases h
  | settle request outcome =>
    simp only [step] at h
    split at h
    · simp only [Option.some.injEq] at h
      rw [← h]; exact settle_intervals outcome s.page
    · cases h
  | stop =>
    simp only [step, Option.some.injEq] at h
    rw [← h]; rfl

theorem run_intervals (evs : List Event) (s s1 : Sys) (h : run evs s = some s1) :
    s1.page.intervals = s.page.intervals := by
  induction evs generalizing s with
  | nil =>
    simp only [run, Option.some.injEq] at h
    rw [h]
  | cons e es ih =>
    simp only [run] at h
    split at h
    · next s2 hs => rw [ih s2 h, step_intervals e s s2 hs]
    · cases h

theorem step_requests (e : Event) (s s1 : Sys) (h : step e s = some s1) :
    s1.page.requests = s.page.requests ++ List.replicate (countFires [e]) timeRequest := by
  cases e with
  | fire timer =>
    simp only [step] at h
    split at h
    · next interval _ =>
      cases hc : interval.callback
      simp only [hc, runCallback, Option.some.injEq] at h
      rw [← h]; rfl
    · cases h
  | settle request outcome =>
    simp only [step] at h
    split at h
    · simp only [Option.some.injEq] at h
      rw [← h]
      simp [countFires, settle_requests]
    · cases h
  | stop =>
    simp only [step, Option.some.injEq] at h
    rw [← h]
    simp [countFires, stopScheduler]

theorem countFires_cons (e : Event) (es : List Event) :
    countFires (e :: es) = countFires [e] + countFires es := by
  cases e <;> simp [countFires, Nat.add_comm]

theorem run_requests (evs : List Event) (s s1 : Sys) (h : run evs s = some s1) :
    s1.page.requests = s.page.requests ++ List.replicate (countFires evs) timeRequest := by
  induction evs generalizing s with
  | nil =>
    simp only [run, Option.some.injEq] at h
    rw [h]; simp [countFires]
  | cons e es ih =>
    simp only [run] at h
    split at h
    · next s2 hs =>
      rw [countFires_cons e es, ih s2 h, step_requests e s s2 hs, List.append_assoc,
        List.replicate_add]
    · cases h

theorem step_display (e : Event) (s s1 : Sys) (prior : String)
    (hp : s.page.display = some prior) (h : step e s = some s1) :
    s1.page.display = some ((lastResolved [e]).getD prior) := by
  cases e with
  | fire timer =>
    simp only [step] at h
    split at h
    · next interval _ =>
      cases hc : interval.callback
      simp only [hc, runCallback, Option.some.injEq] at h
      rw [← h]; exact hp
    · cases h
  | settle request outcome =>
    simp only [step] at h
    split at h
    · simp only [Option.some.injEq] at h
      rw [← h]
      exact settle_display outcome s.page prior hp
    · cases h
  | stop =>
    simp only [step, Option.some.injEq] at h
    rw [← h]; exact hp

theorem lastResolved_cons (e : Event) (es : List Event) (prior : String) :
    (lastResolved (e :: es)).getD prior
      = (lastResolved es).getD ((lastResolved [e]).getD prior) := by
  cases hl : lastResolved es with
  | some text => simp [lastResolved, hl]
  | none => cases e <;> simp [lastResolved, hl]

theorem run_display (evs : List Event) (s s1 : Sys) (prior : String)
    (hp : s.page.display = some prior) (h : run evs s = some s1) :
    s1.page.display = some ((lastResolved evs).getD prior) := by
  induction evs generalizing s prior with
  | nil =>
    simp only [run, Option.some.injEq] at h
    rw [← h]; exact hp
  | cons e es ih =>
    simp only [run] at h
    split at h
    · next s2 hs =>
      rw [lastResolved_cons]
      exact ih s2 _ (step_display e s s2 prior hp hs) h
    · cases h

theorem run_append (xs ys : List Event) (s : Sys) :
    run (xs ++ ys) s = (run xs s).bind (run ys) := by
  induction xs generalizing s with
  | nil => rfl
  | cons e es ih =>
    simp only [List.cons_append, run]
    cases step e s with
    | none => rfl
    | some s2 => exact ih s2

/-- As long as the timer of the script is registered, it can fire any number
of times; each firing puts one more request in flight and leaves the display
alone. -/
theorem run_fires (k : Nat) (s : Sys) (hi : s.page.intervals = [⟨.updateTimer, 1000⟩]) :
    ∃ s1, run (List.replicate k (.fire 0)) s = some s1 ∧
      s1.page.display = s.page.display ∧
      s1.pending = s.pending ++ List.range' s.page.requests.length k := by
  induction k generalizing s with
  | zero => exact ⟨s, rfl, rfl, by simp⟩
  | succ k ih =>
    have hstep : step (.fire 0) s = some (runCallback .updateTimer s) := by
      simp [step, hi]
    obtain ⟨s1, hrun, hd, hpend⟩ := ih (runCallback .updateTimer s) hi
    refine ⟨s1, ?_, hd, ?_⟩
    · simp only [List.replicate_succ, run, hstep]
      exact hrun
    · rw [hpend]
      simp [runCallback, updateTimerCall, fetch, List.range'_succ]

theorem countFires_replicate (k : Nat) :
    countFires (List.replicate k (.fire 0)) = k := by
  induction k with
  | zero => rfl
  | succ k ih => simp [List.replicate_succ, countFires, ih]

/-- Requests in flight can settle in any order: a list of distinct requests,
all in flight, can be settled one after the other, whatever the outcomes. -/
theorem run_settles (resp : Nat → FetchOutcome) (order : List Nat) (s : Sys)
    (hn : order.Nodup) (hm : ∀ i ∈ order, i ∈ s.pending) :
    ∃ s1, run (order.map (fun i => Event.settle i (resp i))) s = some s1 ∧
      s1.pending.length + order.length = s.pending.length := by
  induction order generalizing s with
  | nil => exact ⟨s, rfl, rfl⟩
  | cons i rest ih =>
    have hi : i ∈ s.pending := hm i (List.mem_cons_self i rest)
    have hstep : step (.settle i (resp i)) s
        = some { page := updateTimerSettle (resp i) s.page, pending := s.pending.erase i } := by
      simp [step, hi]
    rw [List.nodup_cons] at hn
    obtain ⟨s1, hrun, hlen⟩ := ih
      { page := updateTimerSettle (resp i) s.page, pending := s.pending.erase i } hn.2
      (fun j hj => (List.mem_erase_of_ne (fun (h : j = i) => hn.1 (by rw [← h]; exact hj))).mpr
        (hm j (List.mem_cons_of_mem i hj)))
    refine ⟨s1, ?_, ?_⟩
    · simp only [List.map_cons, run, hstep]
      exact hrun
    · have hpos : 0 < s.pending.length := List.length_pos_of_mem hi
      simp only [List.length_erase_of_mem hi] at hlen
      simp only [List.length_cons]
      omega

theorem tabRun_from_gone (tevs : List TabEvent) (target : String) (t : Tab)
    (h : tabRun tevs (.gone target) = some t) : tevs = [] ∧ t = .gone target := by
  cases tevs with
  | nil =>
    simp only [tabRun, Option.some.injEq] at h
    exact ⟨rfl, h.symm⟩
  | cons e es =>
    have he : tabStep e (.gone target) = none := by cases e <;> rfl
    simp [tabRun, he] at h

theorem tabRun_widgets (evs : List Event) (s s1 : Sys) (leaving : Option String)
    (h : run evs s = some s1) :
    ∃ leaving1, tabRun (evs.map .widget) (.live s leaving) = some (.live s1 leaving1) := by
  induction evs generalizing s leaving with
  | nil =>
    simp only [run, Option.some.injEq] at h
    exact ⟨leaving, by rw [h]; rfl⟩
  | cons e es ih =>
    simp only [run] at h
    split at h
    · next s2 hs =>
      obtain ⟨l1, hl1⟩ := ih s2 (leavingAfter e s2 leaving) h
      exact ⟨l1, by simp only [List.map_cons, tabRun, tabStep, hs]; exact hl1⟩
    · cases h

theorem tabRun_live (tevs : List TabEvent) (s s1 : Sys) (leaving leaving1 : Option String)
    (h : tabRun tevs (.live s leaving) = some (.live s1 leaving1)) :
    s1.page.intervals = s.page.intervals := by
  induction tevs generalizing s leaving with
  | nil =>
    simp only [tabRun, Option.some.injEq, Tab.live.injEq] at h
    rw [h.1]
  | cons e es ih =>
    cases e with
    | widget ev =>
      simp only [tabRun, tabStep] at h
      cases hs : step ev s with
      | none => simp [hs] at h
      | some s2 =>
        simp only [hs] at h
        rw [ih s2 _ h, step_intervals ev s s2 hs]
    | commit =>
      cases leaving with
      | none => simp [tabRun, tabStep] at h
      | some target =>
        simp only [tabRun, tabStep] at h
        have := (tabRun_from_gone es target _ h).2
        cases this

theorem tabRun_gone (tevs : List TabEvent) (s : Sys) (leaving : Option String)
    (target : String) (h : tabRun tevs (.live s leaving) = some (.gone target)) :
    TabEvent.commit ∈ tevs ∧
      (leaving = some target ∨ (TabEvent.widget .stop ∈ tevs ∧ target = "/stop")) := by
  induction tevs generalizing s leaving with
  | nil => simp [tabRun] at h
  | cons e es ih =>
    cases e with
    | widget ev =>
      simp only [tabRun, tabStep] at h
      cases hs : step ev s with
      | none => simp [hs] at h
      | some s2 =>
        simp only [hs] at h
        obtain ⟨hc, hl⟩ := ih s2 _ h
        refine ⟨List.mem_cons_of_mem _ hc, ?_⟩
        rcases hl with hl | ⟨hstop, ht⟩
        · cases ev with
          | fire timer => exact Or.inl hl
          | settle request outcome => exact Or.inl hl
          | stop =>
            simp only [leavingAfter, Option.some.injEq] at hl
            simp only [step, Option.some.injEq] at hs
            refine Or.inr ⟨List.mem_cons_self _ _, ?_⟩
            rw [← hl, ← hs]
            rfl
        · exact Or.inr ⟨List.mem_cons_of_mem _ hstop, ht⟩
    | commit =>
      cases leaving with
      | none => simp [tabRun, tabStep] at h
      | some t0 =>
        simp only [tabRun, tabStep] at h
        have hg := (tabRun_from_gone es t0 _ h).2
        simp only [Tab.gone.injEq] at hg
        exact ⟨List.mem_cons_self _ _, Or.inl (by rw [hg])⟩

/-! ## The operations of the widget -/

/-- C1: when the display element exists and the request resolves with a JSON
object whose field `time_remaining` is the number `n` (the last property of
that name in the body, whatever the other properties are), the text of the
display after `updateTimer` is the text form of `n`, whatever the text was
before and whatever the status of the response, and nothing else changes but
the request issued.  The text form is that of `Number::toString`: `"42"` for
42, `"1.5"` for 1.5, `"9007199254740992"` for 2^53, `"100"` for 100,
`"0.000001"` and `"1e-7"` for these two, `"1e+21"` for 10^21, `"-5"` for -5,
`"0"` for both zeros. -/
theorem updateTimer_shows_number (n : JSNumber) (prior : String) (status : Nat)
    (before after : List (String × JSValue)) (p : Page)
    (hp : p.display = some prior)
    (hlast : ∀ kv ∈ after, kv.1 ≠ "time_remaining") :
    (updateTimer (.resolves ⟨status,
        some (.object (before ++ ("time_remaining", .number n) :: after))⟩) p).display
        = some (numberToString n) ∧
      updateTimer (.resolves ⟨status,
        some (.object (before ++ ("time_remaining", .number n) :: after))⟩) p
        = { p with display := some (numberToString n),
                   requests := p.requests ++ [timeRequest] } ∧
      numberToString (.finite false 42 2 (by decide)) = "42" ∧
      numberToString (.finite false 15 1 (by decide)) = "1.5" ∧
      numberToString (.finite false 9007199254740992 16 (by decide)) = "9007199254740992" ∧
      numberToString (.finite false 1 3 (by decide)) = "100" ∧
      numberToString (.finite false 1 (-5) (by decide)) = "0.000001" ∧
      numberToString (.finite false 1 (-6) (by decide)) = "1e-7" ∧
      numberToString (.finite false 1 22 (by decide)) = "1e+21" ∧
      numberToString (.finite true 5 1 (by decide)) = "-5" ∧
      numberToString (.zero false) = "0" ∧
      numberToString (.zero true) = "0" := by
  have hv : getTimeRemaining (.object (before ++ ("time_remaining", .number n) :: after))
      = .ok (.number n) := by
    simp [getTimeRemaining, lookupOwn_last "time_remaining" (.number n) before after hlast]
  have hs := settle_shown status _ (.number n) (updateTimerCall p) prior
    (numberToString n) hp hv rfl
  have hd : updateTimer (.resolves ⟨status,
        some (.object (before ++ ("time_remaining", .number n) :: after))⟩) p
        = { p with display := some (numberToString n),
                   requests := p.requests ++ [timeRequest] } := by
    unfold updateTimer
    rw [hs]
    rfl
  refine ⟨by rw [hd], hd, ?_, ?_, ?_, ?_, ?_, ?_, ?_, ?_, ?_, ?_⟩ <;> decide

theorem updateTimer_shows_number_witness :
    (pageShowing "17").display = some "17" ∧
      (∀ kv ∈ ([] : List (String × JSValue)), kv.1 ≠ "time_remaining") ∧
      (updateTimer (.resolves ⟨200, some statusBody⟩) (pageShowing "17")).display
        = some "42" :=
  ⟨rfl, (by simp),
    (updateTimer_shows_number fortyTwo "17" 200 [("status", .string "ok")] []
      (pageShowing "17") rfl (by simp)).1⟩

/-- C2: when the request fails, because `fetch` rejects or because the body of
the response is not JSON, `updateTimer` leaves the page as it was except for
its own request and exactly one new entry of the error log, which carries the
failure: the text of the display is unchanged and no second request is
issued. -/
theorem updateTimer_failure_logged (p : Page) (reason : String) (status : Nat) :
    updateTimer (.rejects reason) p
        = { p with requests := p.requests ++ [timeRequest],
                   console := p.console ++ [⟨errorMessage, .network reason⟩] } ∧
      updateTimer (.resolves ⟨status, none⟩) p
        = { p with requests := p.requests ++ [timeRequest],
                   console := p.console ++ [⟨errorMessage, .syntaxError⟩] } ∧
      (updateTimer (.rejects reason) p).display = p.display ∧
      (updateTimer (.resolves ⟨status, none⟩) p).display = p.display :=
  ⟨rfl, rfl, rfl, rfl⟩

/-- C3, as the specification states it, fails: on a page without the element
`time-remaining` and a response with body `{"time_remaining": 42}`, the
`TypeError` of the DOM access is taken by the `catch` handler, which logs it;
no rejection is left unhandled. -/
theorem missing_element_is_caught :
    (updateTimer (okResponse fortyTwo) pageWithoutDisplay).console
        = [⟨errorMessage, .typeError⟩] ∧
      (updateTimer (okResponse fortyTwo) pageWithoutDisplay).console
        ≠ pageWithoutDisplay.console ∧
      (updateTimer (okResponse fortyTwo) pageWithoutDisplay).unhandled = [] := by
  decide

/-- C3, amended: on a page without the element `time-remaining`, when the
request resolves with a body that is JSON, the DOM access throws a `TypeError`
that the `catch` handler of `updateTimer` takes: one entry carrying it is
added to the error log, as for a request or parse failure, no rejection is
left unhandled, and nothing else changes but the request issued. -/
theorem updateTimer_missing_element (p : Page) (status : Nat) (d : JSValue)
    (hp : p.display = none) :
    updateTimer (.resolves ⟨status, some d⟩) p
        = { p with requests := p.requests ++ [timeRequest],
                   console := p.console ++ [⟨errorMessage, .typeError⟩] } ∧
      (updateTimer (.resolves ⟨status, some d⟩) p).unhandled = p.unhandled ∧
      (updateTimer (.resolves ⟨status, some d⟩) p).display = none := by
  have hs := settle_no_element status d (updateTimerCall p) hp
  have h : updateTimer (.resolves ⟨status, some d⟩) p
      = { p with requests := p.requests ++ [timeRequest],
                 console := p.console ++ [⟨errorMessage, .typeError⟩] } := by
    unfold updateTimer
    rw [hs]
    rfl
  refine ⟨h, ?_, ?_⟩
  · rw [h]
  · rw [h]; exact hp

theorem updateTimer_missing_element_witness :
    pageWithoutDisplay.display = none ∧
      (updateTimer (okResponse fortyTwo) pageWithoutDisplay).unhandled
        = pageWithoutDisplay.unhandled :=
  ⟨rfl, (updateTimer_missing_element pageWithoutDisplay 200 (timeBody fortyTwo) rfl).2.1⟩

/-- C5: `stopScheduler` sets the navigation target to exactly `/stop` and
changes nothing else: no request is issued with `fetch`, and the display, the
error log and the repeating timer are as before; as an event it leaves the
requests in flight untouched. -/
theorem stopScheduler_navigates (p : Page) (s : Sys) :
    (stopScheduler p).location = "/stop" ∧
      stopScheduler p = { p with location := "/stop" } ∧
      (stopScheduler p).requests = p.requests ∧
      (stopScheduler p).display = p.display ∧
      (stopScheduler p).console = p.console ∧
      (stopScheduler p).intervals = p.intervals ∧
      step .stop s = some { page := { s.page with location := "/stop" },
                            pending := s.pending } :=
  ⟨rfl, rfl, rfl, rfl, rfl, rfl, rfl⟩

/-- C6: for a number `n ≤ 0` returned as `time_remaining` (a zero, a negative
finite number or `-Infinity`), the condition of the `if` holds and handling
the response changes the text of the display to the text form of `n` and
nothing else, exactly as it does for a number that is not `≤ 0`, for which the
condition fails: nothing is logged, no navigation happens, the timer stays
registered and the invocation issues no request beyond its own.  The text is
`"0"` for both zeros, `"-5"` for -5, `"-0.5"` for -0.5 and `"-Infinity"` for
`-Infinity`. -/
theorem updateTimer_zero_branch_noop (n : JSNumber) (prior : String) (status : Nat)
    (before after : List (String × JSValue)) (p : Page)
    (hn : (∃ negative, n = .zero negative) ∨ (∃ s point h, n = .finite true s point h) ∨
      n = .infinity true)
    (hp : p.display = some prior)
    (hlast : ∀ kv ∈ after, kv.1 ≠ "time_remaining") :
    leZero (.number n) = .ok (some true) ∧
      updateTimerSettle (.resolves ⟨status,
        some (.object (before ++ ("time_remaining", .number n) :: after))⟩) p
        = { p with display := some (numberToString n) } ∧
      updateTimer (.resolves ⟨status,
        some (.object (before ++ ("time_remaining", .number n) :: after))⟩) p
        = { p with display := some (numberToString n),
                   requests := p.requests ++ [timeRequest] } ∧
      (∀ m : JSNumber,
        updateTimerSettle (.resolves ⟨status,
          some (.object (before ++ ("time_remaining", .number m) :: after))⟩) p
          = { p with display := some (numberToString m) }) ∧
      (∀ s point h, leZero (.number (.finite false s point h)) = .ok (some false)) ∧
      leZero (.number (.infinity false)) = .ok (some false) ∧
      leZero (.number .nan) = .ok (some false) ∧
      numberToString (.zero false) = "0" ∧
      numberToString (.zero true) = "0" ∧
      numberToString (.finite true 5 1 (by decide)) = "-5" ∧
      numberToString (.finite true 5 0 (by decide)) = "-0.5" ∧
      numberToString (.infinity true) = "-Infinity" := by
  have hs : ∀ (m : JSNumber) (q : Page), q.display = some prior →
      updateTimerSettle (.resolves ⟨status,
        some (.object (before ++ ("time_remaining", .number m) :: after))⟩) q
        = { q with display := some (numberToString m) } := fun m q hq =>
    settle_shown status _ (.number m) q prior (numberToString m) hq
      (by simp [getTimeRemaining, lookupOwn_last "time_remaining" (.number m) before after hlast])
      rfl
  refine ⟨?_, hs n p hp, ?_, fun m => hs m p hp, fun _ _ _ => rfl, rfl, rfl, ?_, ?_, ?_, ?_, ?_⟩
  · rcases hn with ⟨negative, rfl⟩ | ⟨s, point, h, rfl⟩ | rfl <;> rfl
  · unfold updateTimer
    rw [hs n (updateTimerCall p) hp]
    rfl
  all_goals decide

theorem updateTimer_zero_branch_noop_witness :
    ((∃ negative, zero = JSNumber.zero negative) ∨
        (∃ s point h, zero = JSNumber.finite true s point h) ∨ zero = JSNumber.infinity true) ∧
      (pageShowing "3").display = some "3" ∧
      (∀ kv ∈ ([] : List (String × JSValue)), kv.1 ≠ "time_remaining") ∧
      updateTimerSettle (okResponse zero) (pageShowing "3")
        = { (pageShowing "3") with display := some "0" } :=
  ⟨Or.inl ⟨false, rfl⟩, rfl, (by simp),
    (updateTimer_zero_branch_noop zero "3" 200 [] [] (pageShowing "3") (Or.inl ⟨false, rfl⟩)
      rfl (by simp)).2.1⟩

/-- C9: the effect of `updateTimer` does not depend on the status of the
response: two responses with the same body and different status codes leave
the same page; in particular a response with status 500 and body
`{"time_remaining": n}` is displayed and nothing is logged. -/
theorem updateTimer_ignores_status (status1 status2 : Nat) (body : Option JSValue)
    (n : JSNumber) (p : Page) :
    updateTimer (.resolves ⟨status1, body⟩) p = updateTimer (.resolves ⟨status2, body⟩) p ∧
      updateTimer (.resolves ⟨500, some (timeBody n)⟩) { p with display := some "" }
        = { p with display := some (numberToString n),
                   requests := p.requests ++ [timeRequest] } := by
  refine ⟨?_, ?_⟩
  · cases body <;> rfl
  · unfold updateTimer
    rw [settle_shown 500 (timeBody n) (.number n) _ "" (numberToString n) rfl rfl rfl]
    rfl

/-- C10, as the specification states it, fails: with the display showing
`"5"`, the body `{"time_remaining": {"toString": 1}}` is a JSON object, yet
the value of the field has no text form, the assignment throws, the error is
logged and the display keeps its text. -/
theorem shadowed_toString_is_logged :
    (updateTimer (.resolves ⟨200, some shadowedBody⟩) (pageShowing "5")).console
        = [⟨errorMessage, .typeError⟩] ∧
      (updateTimer (.resolves ⟨200, some shadowedBody⟩) (pageShowing "5")).display
        = some "5" := by
  decide

/-- C10, amended: `updateTimer` does not validate the field `time_remaining`.
With the display element present and a body that is a JSON object, the value
written is that of the last property named `time_remaining`, or `undefined`
when there is none.  Whenever that value has a text form, nothing is logged
and the display is overwritten with that text: `"undefined"` when the field is
absent, the empty text for `null`, `"true"` and `"false"`, the text of a
number, a string itself, `"[object Object]"` for an object without an own
property `toString`, and the elements joined with commas for an array whose
elements all have a text form.  The values without a text form are exactly
the objects with an own property `toString` and the arrays that contain such
a value; for them the error path is taken: one entry carrying a `TypeError`
is logged and the display keeps its text. -/
theorem updateTimer_unvalidated_field (status : Nat)
    (before after : List (String × JSValue)) (value : JSValue)
    (p : Page) (prior : String) (hp : p.display = some prior)
    (hlast : ∀ kv ∈ after, kv.1 ≠ "time_remaining") :
    (∀ text, toDOMString value = .ok text →
        updateTimer (.resolves ⟨status,
          some (.object (before ++ ("time_remaining", value) :: after))⟩) p
          = { p with display := some text, requests := p.requests ++ [timeRequest] }) ∧
      (NoText value →
        updateTimer (.resolves ⟨status,
          some (.object (before ++ ("time_remaining", value) :: after))⟩) p
          = { p with requests := p.requests ++ [timeRequest],
                     console := p.console ++ [⟨errorMessage, .typeError⟩] }) ∧
      (∀ props : List (String × JSValue), (∀ kv ∈ props, kv.1 ≠ "time_remaining") →
        updateTimer (.resolves ⟨status, some (.object props)⟩) p
          = { p with display := some "undefined",
                     requests := p.requests ++ [timeRequest] }) ∧
      (∀ v, (NoText v ∧ toDOMString v = .error .typeError) ∨
        (¬ NoText v ∧ ∃ text, toDOMString v = .ok text)) ∧
      (∀ q w, ("toString", w) ∈ q → toDOMString (.object q) = .error .typeError) ∧
      (∀ items q w, ("toString", w) ∈ q → JSValue.object q ∈ items →
        toDOMString (.array items) = .error .typeError) ∧
      toDOMString .undefined = .ok "undefined" ∧
      toDOMString .null = .ok "" ∧
      toDOMString (.bool true) = .ok "true" ∧
      toDOMString (.bool false) = .ok "false" ∧
      (∀ m, toDOMString (.number m) = .ok (numberToString m)) ∧
      (∀ t, toDOMString (.string t) = .ok t) ∧
      (∀ q, (∀ kv ∈ q, kv.1 ≠ "toString") → toDOMString (.object q) = .ok "[object Object]") ∧
      toDOMString (.array []) = .ok "" ∧
      toDOMString (.array [.string "a", .null, .bool true, .array [.string "b", .string "c"],
        .undefined, .object [("valueOf", .null)]]) = .ok "a,,true,b,c,,[object Object]" := by
  have hv : getTimeRemaining (.object (before ++ ("time_remaining", value) :: after))
      = .ok value := by
    simp [getTimeRemaining, lookupOwn_last "time_remaining" value before after hlast]
  have herr : ∀ v, NoText v → toDOMString v = .error .typeError := fun v hn => by
    rcases toDOMString_sound v with ⟨_, he⟩ | ⟨hnot, _⟩
    · exact he
    · exact absurd hn hnot
  refine ⟨fun text ht => ?_, fun hn => ?_, fun props hprops => ?_, toDOMString_sound,
    fun q w hw => herr _ (NoText.shadowed q w hw),
    fun items q w hw hq => herr _ (NoText.inside items _ hq (NoText.shadowed q w hw)),
    rfl, rfl, rfl, rfl, fun _ => rfl, fun _ => rfl, fun q hq => ?_, rfl, rfl⟩
  · unfold updateTimer
    rw [settle_shown status _ value (updateTimerCall p) prior text hp hv ht]
    rfl
  · unfold updateTimer
    rw [settle_no_text status _ value (updateTimerCall p) prior .typeError hp hv (herr value hn)]
    rfl
  · have hu : getTimeRemaining (.object props) = .ok .undefined := by
      simp [getTimeRemaining, lookupOwn_absent "time_remaining" props hprops]
    unfold updateTimer
    rw [settle_shown status _ .undefined (updateTimerCall p) prior "undefined" hp hu rfl]
    rfl
  · rcases toDOMString_sound (.object q) with ⟨hn, _⟩ | ⟨_, text, ht⟩
    · cases hn with
      | shadowed _ w hw => exact absurd rfl (hq _ hw)
    · have hh : hasOwn "toString" q = false := by
        cases hc : hasOwn "toString" q with
        | false => rfl
        | true =>
          obtain ⟨w, hw⟩ := (hasOwn_iff "toString" q).mp hc
          exact absurd rfl (hq _ hw)
      simp [toDOMString, jsToString, hh]

theorem updateTimer_unvalidated_field_witness :
    (pageShowing "5").display = some "5" ∧
      (∀ kv ∈ ([] : List (String × JSValue)), kv.1 ≠ "time_remaining") ∧
      NoText (.object [("toString", .null)]) ∧
      updateTimer (.resolves ⟨200, some (.object [("status", .string "ok"),
          ("time_remaining", .object [("toString", .null)])])⟩) (pageShowing "5")
        = { (pageShowing "5") with requests := [timeRequest]
                                   console := [⟨errorMessage, .typeError⟩] } :=
  ⟨rfl, (by simp), NoText.shadowed _ .null (List.mem_cons_self _ _),
    (updateTimer_unvalidated_field 200 [("status", .string "ok")] []
      (.object [("toString", .null)]) (pageShowing "5") "5" rfl (by simp)).2.1
      (NoText.shadowed _ .null (List.mem_cons_self _ _))⟩

/-! ## The polling loop -/

/-- C4: when `k` invocations of `updateTimer` have been made on a page with
the display element present and their requests settle in an arbitrary order
(any permutation `order` of the send order `0, .., k-1`, with arbitrary
outcomes), every settlement can take place, nothing is left in flight at the
end, and the text of the display is the text carried by the most recently
resolved successful response in the order of resolution, or the initial text
when no response was successful; failed resolutions do not change it.  The
same holds along every trace in which firings, settlements and stop actions
are interleaved. -/
theorem last_write_wins (k : Nat) (order : List Nat) (resp : Nat → FetchOutcome)
    (prior href : String) (hperm : order.Perm (List.range k)) :
    (∃ s1, run (List.replicate k (.fire 0) ++ order.map (fun i => Event.settle i (resp i)))
          (pageLoad (some prior) href) = some s1 ∧
        s1.pending = [] ∧
        s1.page.display
          = some ((lastResolved (order.map (fun i => Event.settle i (resp i)))).getD prior)) ∧
      (∀ (evs : List Event) (s s1 : Sys) (text : String),
        s.page.display = some text → run evs s = some s1 →
        s1.page.display = some ((lastResolved evs).getD text)) := by
  refine ⟨?_, fun evs s s1 text hp h => run_display evs s s1 text hp h⟩
  obtain ⟨s0, hfires, hd0, hp0⟩ := run_fires k (pageLoad (some prior) href) rfl
  have hpend : s0.pending = List.range k := by
    rw [hp0, List.range_eq_range']
    rfl
  have hn : order.Nodup := (hperm.nodup_iff).mpr (List.nodup_range k)
  have hm : ∀ i ∈ order, i ∈ s0.pending := fun i hi => by
    rw [hpend]
    exact (hperm.mem_iff).mp hi
  obtain ⟨s1, hsettles, hlen⟩ := run_settles resp order s0 hn hm
  refine ⟨s1, ?_, ?_, ?_⟩
  · rw [run_append, hfires]
    exact hsettles
  · have hk : s0.pending.length = order.length := by
      rw [hpend, hperm.length_eq]
    exact List.eq_nil_of_length_eq_zero (by omega)
  · exact run_display _ s0 s1 prior hd0 hsettles

theorem last_write_wins_witness :
    raceOrder.Perm (List.range 3) ∧
      (∃ s1, run raceTrace (pageLoad (some "--") "/") = some s1 ∧
        s1.pending = [] ∧ s1.page.display = some "10") := by
  have hperm : raceOrder.Perm (List.range 3) := by decide
  exact ⟨hperm, (last_write_wins 3 raceOrder raceResponses "--" "/" hperm).1⟩

/-- C7: the polling loop is never stopped by the widget.  In every state
reached from page load by timer firings, settlements (successful or failed)
and calls of `stopScheduler`, the repeating timer registered by the script is
still the one active timer, with callback `updateTimer` and period 1000, it
can fire again, and the document is still live in its tab.  Along every
sequence of events of the tab, as long as the document is live the same
holds.  Polling ends only when the document is unloaded: the tab can be
`gone` only through the commit of the navigation to `/stop` that a call of
`stopScheduler` has started, and then no code of the script runs at all. -/
theorem polling_never_stops (display : Option String) (href : String) :
    (∀ evs s, run evs (pageLoad display href) = some s →
        s.page.intervals = [⟨.updateTimer, 1000⟩] ∧
        (step (.fire 0) s).isSome = true ∧
        ∃ leaving, tabRun (evs.map .widget) (tabLoad display href) = some (.live s leaving)) ∧
      (∀ tevs s leaving, tabRun tevs (tabLoad display href) = some (.live s leaving) →
        s.page.intervals = [⟨.updateTimer, 1000⟩] ∧
        (tabStep (.widget (.fire 0)) (.live s leaving)).isSome = true) ∧
      (∀ tevs target, tabRun tevs (tabLoad display href) = some (.gone target) →
        TabEvent.commit ∈ tevs ∧ TabEvent.widget .stop ∈ tevs ∧ target = "/stop") ∧
      (∀ e target, tabStep e (.gone target) = none) := by
  refine ⟨fun evs s h => ?_, fun tevs s leaving h => ?_, fun tevs target h => ?_,
    fun e target => ?_⟩
  · have hi : s.page.intervals = [⟨.updateTimer, 1000⟩] :=
      run_intervals evs (pageLoad display href) s h
    exact ⟨hi, by simp [step, hi], tabRun_widgets evs (pageLoad display href) s none h⟩
  · have hi : s.page.intervals = [⟨.updateTimer, 1000⟩] :=
      tabRun_live tevs (pageLoad display href) s none leaving h
    exact ⟨hi, by simp [tabStep, step, hi, runCallback]⟩
  · obtain ⟨hc, hl⟩ := tabRun_gone tevs (pageLoad display href) none target h
    rcases hl with hl | ⟨hs, ht⟩
    · cases hl
    · exact ⟨hc, hs, ht⟩
  · cases e <;> rfl

theorem polling_never_stops_witness :
    (∃ s, run (raceTrace ++ [.stop]) (pageLoad (some "--") "/") = some s ∧
        s.page.intervals = [⟨.updateTimer, 1000⟩]) ∧
      tabRun [.widget (.fire 0), .widget .stop, .widget (.fire 0), .commit]
          (tabLoad (some "--") "/") = some (.gone "/stop") ∧
      TabEvent.widget .stop ∈ [TabEvent.widget (.fire 0), .widget .stop, .widget (.fire 0),
        .commit] := by
  have hr : (run (raceTrace ++ [.stop]) (pageLoad (some "--") "/")).isSome = true := by decide
  obtain ⟨s, hs⟩ := Option.isSome_iff_exists.mp hr
  have hg : tabRun [.widget (.fire 0), .widget .stop, .widget (.fire 0), .commit]
      (tabLoad (some "--") "/") = some (.gone "/stop") := rfl
  exact ⟨⟨s, hs, ((polling_never_stops (some "--") "/").1 _ s hs).1⟩, hg,
    ((polling_never_stops (some "--") "/").2.2.1 _ "/stop" hg).2.1⟩

/-- C8: every invocation of `updateTimer` issues exactly one request, a `GET`
to `/api/time_remaining` without body or query string, whatever the page
shows and however the request settles; the script registers `updateTimer`
with period 1000; for every `k` the timer can fire `k` times after page load
and exactly `k` such requests have then been issued; and in every state
reached from page load the requests issued are exactly one such request per
timer firing, whatever responses came in between. -/
theorem one_request_per_tick :
    (∀ p, updateTimerCall p = { p with requests := p.requests ++ [timeRequest] }) ∧
      (∀ o p, (updateTimer o p).requests = p.requests ++ [timeRequest]) ∧
      timeRequest = ⟨"GET", "/api/time_remaining", none⟩ ∧
      (∀ display href,
        (pageLoad display href).page.intervals = [⟨.updateTimer, 1000⟩]) ∧
      (∀ k display href, ∃ s,
        run (List.replicate k (.fire 0)) (pageLoad display href) = some s ∧
        s.page.requests = List.replicate k timeRequest) ∧
      (∀ display href evs s, run evs (pageLoad display href) = some s →
        s.page.requests = List.replicate (countFires evs) timeRequest) := by
  refine ⟨fun _ => rfl, fun o p => ?_, rfl, fun _ _ => rfl, fun k display href => ?_,
    fun display href evs s h => ?_⟩
  · unfold updateTimer
    rw [settle_requests]
    rfl
  · obtain ⟨s, hs, _, _⟩ := run_fires k (pageLoad display href) rfl
    refine ⟨s, hs, ?_⟩
    rw [run_requests _ (pageLoad display href) s hs, countFires_replicate]
    rfl
  · rw [run_requests evs (pageLoad display href) s h]
    rfl

theorem one_request_per_tick_witness :
    ∃ s, run raceTrace (pageLoad (some "--") "/") = some s ∧
      s.page.requests = [timeRequest, timeRequest, timeRequest] := by
  have hr : (run raceTrace (pageLoad (some "--") "/")).isSome = true := by decide
  obtain ⟨s, hs⟩ := Option.isSome_iff_exists.mp hr
  exact ⟨s, hs, one_request_per_tick.2.2.2.2.2 (some "--") "/" raceTrace s hs⟩

end TimerWidget
